import Mathlib

/-!
Verification of the Figma AI Layers renamer plugin.

The development shallowly embeds the two execution contexts of the plugin:

* the host (main-thread) code `code.ts`: the node serializer `getNodeData`,
  the `figma.ui.onmessage` handler branches (`rename-layers`, `apply-renames`)
  and `reportSelectionStats`;
* the UI code `src/ui.tsx`: the model-call functions `callLLM` (Google
  Gemini) and `callGitHub` (GitHub Models), the markdown fence stripping
  applied to responses, and `handleRename`.

Host scene nodes are modelled as a tree: each node carries the fields the
source reads (`id`, `name`, `type`, `characters`) and an optional children
list; `none` models a node kind without a `children` property (the source
guard `"children" in node`), `some cs` a node whose `children` array is `cs`
in host order.  Figma documents guarantee unique ids; theorems that need
uniqueness take it as an explicit hypothesis.
-/

/-- A host scene node as read by the plugin: `id`, `name`, `type`,
`characters` (meaningful for `"TEXT"` nodes) and the optional children
list (`none` when the node kind has no `children` property). -/
inductive SceneNode : Type where
  | mk (id : String) (name : String) (nodeType : String) (characters : String)
      (children : Option (List SceneNode)) : SceneNode

def SceneNode.id : SceneNode → String
  | .mk i _ _ _ _ => i

def SceneNode.name : SceneNode → String
  | .mk _ n _ _ _ => n

def SceneNode.nodeType : SceneNode → String
  | .mk _ _ t _ _ => t

def SceneNode.characters : SceneNode → String
  | .mk _ _ _ ch _ => ch

def SceneNode.children : SceneNode → Option (List SceneNode)
  | .mk _ _ _ _ cs => cs

/-- The serialized record produced by `getNodeData`: `id`, `name`, `type`,
optional `text` (set only for `"TEXT"` nodes, `undefined` otherwise) and the
`children` field, present exactly when the host node has one. -/
inductive LayerNode : Type where
  | mk (id : String) (name : String) (nodeType : String) (text : Option String)
      (children : Option (List LayerNode)) : LayerNode

def LayerNode.id : LayerNode → String
  | .mk i _ _ _ _ => i

def LayerNode.name : LayerNode → String
  | .mk _ n _ _ _ => n

def LayerNode.nodeType : LayerNode → String
  | .mk _ _ t _ _ => t

def LayerNode.text : LayerNode → Option String
  | .mk _ _ _ tx _ => tx

def LayerNode.children : LayerNode → Option (List LayerNode)
  | .mk _ _ _ _ cs => cs

mutual

/-- Embeds `getNodeData` from `code.ts`: copies `id`, `name`, `type`, sets
`text` to `node.characters` exactly when `node.type === "TEXT"`, and maps
`getNodeData` over the children array when the node has one. -/
def getNodeData : SceneNode → LayerNode
  | .mk i n t ch cs =>
      .mk i n t (if t = "TEXT" then some ch else none) (getNodeDataChildren cs)

/-- The `children` field of the output of `getNodeData`:
`data.children = node.children.map(getNodeData)` when present. -/
def getNodeDataChildren : Option (List SceneNode) → Option (List LayerNode)
  | none => none
  | some cs => some (getNodeDataForest cs)

/-- `cs.map(getNodeData)` on a children array, kept in host order. -/
def getNodeDataForest : List SceneNode → List LayerNode
  | [] => []
  | n :: ns => getNodeData n :: getNodeDataForest ns

end

theorem getNodeDataForest_eq_map (l : List SceneNode) :
    getNodeDataForest l = l.map getNodeData := by
  induction l with
  | nil => rfl
  | cons n ns ih => simp [getNodeDataForest, ih]

mutual

/-- Depth of a host subtree (1 for a node with no reachable children). -/
def sceneDepth : SceneNode → Nat
  | .mk _ _ _ _ cs => 1 + sceneDepthChildren cs

def sceneDepthChildren : Option (List SceneNode) → Nat
  | none => 0
  | some cs => sceneDepthForest cs

def sceneDepthForest : List SceneNode → Nat
  | [] => 0
  | n :: ns => max (sceneDepth n) (sceneDepthForest ns)

end

mutual

/-- Depth of a serialized subtree (1 for a record without children). -/
def layerDepth : LayerNode → Nat
  | .mk _ _ _ _ cs => 1 + layerDepthChildren cs

def layerDepthChildren : Option (List LayerNode) → Nat
  | none => 0
  | some cs => layerDepthForest cs

def layerDepthForest : List LayerNode → Nat
  | [] => 0
  | n :: ns => max (layerDepth n) (layerDepthForest ns)

end

mutual

theorem layerDepth_getNodeData : ∀ n : SceneNode,
    layerDepth (getNodeData n) = sceneDepth n
  | .mk i n t ch cs => by
      simp only [getNodeData, layerDepth, sceneDepth]
      rw [layerDepthChildren_getNodeData cs]

theorem layerDepthChildren_getNodeData : ∀ cs : Option (List SceneNode),
    layerDepthChildren (getNodeDataChildren cs) = sceneDepthChildren cs
  | none => rfl
  | some cs => by
      simp only [getNodeDataChildren, layerDepthChildren, sceneDepthChildren]
      exact layerDepthForest_getNodeData cs

theorem layerDepthForest_getNodeData : ∀ l : List SceneNode,
    layerDepthForest (getNodeDataForest l) = sceneDepthForest l
  | [] => rfl
  | n :: ns => by
      simp only [getNodeDataForest, layerDepthForest, sceneDepthForest]
      rw [layerDepth_getNodeData n, layerDepthForest_getNodeData ns]

end

theorem getNodeData_children (n : SceneNode) :
    (getNodeData n).children = Option.map (List.map getNodeData) n.children := by
  cases n with
  | mk i nm t ch cs =>
      cases cs with
      | none => rfl
      | some l =>
          simp [getNodeData, LayerNode.children, SceneNode.children,
            getNodeDataChildren, getNodeDataForest_eq_map]

theorem getNodeData_text (n : SceneNode) :
    (getNodeData n).text = if n.nodeType = "TEXT" then some n.characters else none := by
  cases n with
  | mk i nm t ch cs => rfl

/-- C6: `getNodeData` preserves tree depth; the output has a `children`
field exactly when the host node has one, with the same length and the
children serialized in host order; `text` is present exactly for `"TEXT"`
nodes. -/
theorem C6_getNodeData_shape (n : SceneNode) :
    layerDepth (getNodeData n) = sceneDepth n ∧
    (getNodeData n).children = Option.map (List.map getNodeData) n.children ∧
    Option.map List.length ((getNodeData n).children)
      = Option.map List.length n.children ∧
    ((getNodeData n).children).isSome = (n.children).isSome ∧
    ((getNodeData n).text).isSome = (n.nodeType == "TEXT") := by
  refine ⟨layerDepth_getNodeData n, getNodeData_children n, ?_, ?_, ?_⟩
  · rw [getNodeData_children n]
    cases n.children <;> simp
  · rw [getNodeData_children n]
    cases n.children <;> simp
  · rw [getNodeData_text n]
    by_cases h : n.nodeType = "TEXT" <;> simp [h]

/-!
## The live document and `apply-renames`

`figma.getNodeById` resolves an id anywhere in the document; the document is
modelled as the forest of its root nodes.  `node.name = renames[id]` is
modelled by rewriting the name of the nodes carrying that id (in a Figma
document ids are unique, so at most one node is affected).
-/

mutual

/-- Search a subtree for the node with the given id (model of the reach of
`figma.getNodeById` into one root). -/
def findNode (i : String) : SceneNode → Option SceneNode
  | .mk nid nm t ch cs =>
      if nid = i then some (.mk nid nm t ch cs) else findChildren i cs

def findChildren (i : String) : Option (List SceneNode) → Option SceneNode
  | none => none
  | some cs => findForest i cs

/-- Search a forest left to right; model of `figma.getNodeById` over the
document's root nodes. -/
def findForest (i : String) : List SceneNode → Option SceneNode
  | [] => none
  | n :: ns =>
      match findNode i n with
      | some r => some r
      | none => findForest i ns

end

mutual

/-- `node.name = nm` for the node with id `i`: rewrites the tree, changing
only the `name` of nodes whose id is `i`. -/
def setNameNode (i nm : String) : SceneNode → SceneNode
  | .mk nid onm t ch cs =>
      .mk nid (if nid = i then nm else onm) t ch (setNameChildren i nm cs)

def setNameChildren (i nm : String) : Option (List SceneNode) → Option (List SceneNode)
  | none => none
  | some cs => some (setNameForest i nm cs)

def setNameForest (i nm : String) : List SceneNode → List SceneNode
  | [] => []
  | n :: ns => setNameNode i nm n :: setNameForest i nm ns

end

/-- Name of the node an id resolves to, if any. -/
def getNameById (i : String) (doc : List SceneNode) : Option String :=
  (findForest i doc).map SceneNode.name

mutual

theorem findNode_setName (i j nm : String) : ∀ n : SceneNode,
    findNode i (setNameNode j nm n) = (findNode i n).map (setNameNode j nm)
  | .mk nid onm t ch cs => by
      simp only [setNameNode, findNode]
      by_cases h : nid = i
      · simp [h, setNameNode]
      · simp only [if_neg h]
        exact findChildren_setName i j nm cs

theorem findChildren_setName (i j nm : String) : ∀ cs : Option (List SceneNode),
    findChildren i (setNameChildren j nm cs) = (findChildren i cs).map (setNameNode j nm)
  | none => rfl
  | some cs => findForest_setName i j nm cs

theorem findForest_setName (i j nm : String) : ∀ l : List SceneNode,
    findForest i (setNameForest j nm l) = (findForest i l).map (setNameNode j nm)
  | [] => rfl
  | n :: ns => by
      simp only [setNameForest, findForest, findNode_setName i j nm n]
      cases findNode i n with
      | none => simp [findForest_setName i j nm ns]
      | some r => simp

end

mutual

theorem findNode_id (i : String) : ∀ n r : SceneNode, findNode i n = some r → r.id = i
  | .mk nid onm t ch cs, r => by
      simp only [findNode]
      by_cases h : nid = i
      · simp only [if_pos h]
        intro he
        cases he
        simpa [SceneNode.id] using h
      · simp only [if_neg h]
        exact findChildren_id i cs r

theorem findChildren_id (i : String) : ∀ (cs : Option (List SceneNode)) (r : SceneNode),
    findChildren i cs = some r → r.id = i
  | none, r => by simp [findChildren]
  | some cs, r => findForest_id i cs r

theorem findForest_id (i : String) : ∀ (l : List SceneNode) (r : SceneNode),
    findForest i l = some r → r.id = i
  | [], r => by simp [findForest]
  | n :: ns, r => by
      simp only [findForest]
      cases h : findNode i n with
      | some x =>
          intro he
          cases he
          exact findNode_id i n r h
      | none => exact findForest_id i ns r

end

theorem setNameNode_name (i nm : String) (n : SceneNode) :
    (setNameNode i nm n).name = if n.id = i then nm else n.name := by
  cases n with
  | mk nid onm t ch cs => rfl

theorem findForest_isSome_setName (i j nm : String) (l : List SceneNode) :
    (findForest i (setNameForest j nm l)).isSome = (findForest i l).isSome := by
  rw [findForest_setName]
  cases findForest i l <;> rfl

theorem getNameById_setName_ne (i j nm : String) (l : List SceneNode) (h : i ≠ j) :
    getNameById i (setNameForest j nm l) = getNameById i l := by
  unfold getNameById
  rw [findForest_setName]
  cases hf : findForest i l with
  | none => rfl
  | some r =>
      have hid := findForest_id i l r hf
      simp [setNameNode_name, hid, h]

theorem getNameById_setName_self (i nm : String) (l : List SceneNode)
    (h : (findForest i l).isSome = true) :
    getNameById i (setNameForest i nm l) = some nm := by
  unfold getNameById
  rw [findForest_setName]
  cases hf : findForest i l with
  | none => rw [hf] at h; simp at h
  | some r =>
      have hid := findForest_id i l r hf
      simp [setNameNode_name, hid]

/-- Messages the host posts to the UI via `figma.ui.postMessage`. -/
inductive HostOutMsg : Type where
  | loadedStorage (apiKey : Option String)
  | error (payload : String)
  | layersDataForAI (layers : List LayerNode) (context : String)
      (apiKey : String) (model : String)
  | layersRenamed (count : Nat)
  | selectionChanged (count : Nat) (estimatedTokens : Nat)

/-- Embeds the `apply-renames` loop of `figma.ui.onmessage`: iterate over the
keys of the rename map in order (a JS object's string keys are distinct and
enumerate in insertion order, so the map is a list of key/value pairs); for
each key, if `figma.getNodeById` resolves it, overwrite that node's name and
increment the count, otherwise skip it.  Returns the updated document and the
count of nodes actually renamed. -/
def applyRenamesLoop : List (String × String) → List SceneNode → List SceneNode × Nat
  | [], doc => (doc, 0)
  | (i, nm) :: rest, doc =>
      match findForest i doc with
      | some _ =>
          let r := applyRenamesLoop rest (setNameForest i nm doc)
          (r.1, r.2 + 1)
      | none => applyRenamesLoop rest doc

/-- The full `apply-renames` branch: run the loop, then post
`{ type: "layers-renamed", count }`. -/
def onApplyRenames (renames : List (String × String)) (doc : List SceneNode) :
    List SceneNode × HostOutMsg :=
  let r := applyRenamesLoop renames doc
  (r.1, .layersRenamed r.2)

theorem applyRenamesLoop_count (renames : List (String × String)) :
    ∀ doc : List SceneNode,
    (applyRenamesLoop renames doc).2
      = (renames.filter (fun kv => (findForest kv.1 doc).isSome)).length := by
  induction renames with
  | nil => intro doc; rfl
  | cons kv rest ih =>
      intro doc
      obtain ⟨i, nm⟩ := kv
      by_cases h : (findForest i doc).isSome = true
      · obtain ⟨r, hr⟩ := Option.isSome_iff_exists.mp h
        have hfilter : rest.filter (fun kv => (findForest kv.1 (setNameForest i nm doc)).isSome)
            = rest.filter (fun kv => (findForest kv.1 doc).isSome) := by
          apply List.filter_congr
          intro x _
          simp [findForest_isSome_setName]
        simp only [applyRenamesLoop, hr, ih, List.filter_cons]
        simp only [hr, Option.isSome_some, if_pos, hfilter, List.length_cons]
      · have hn : findForest i doc = none := by
          cases hf : findForest i doc
          · rfl
          · rw [hf] at h; simp at h
        simp only [applyRenamesLoop, hn, ih, List.filter_cons]
        simp [hn]

theorem applyRenamesLoop_notKey (renames : List (String × String)) :
    ∀ (doc : List SceneNode) (i : String), i ∉ renames.map Prod.fst →
    getNameById i (applyRenamesLoop renames doc).1 = getNameById i doc := by
  induction renames with
  | nil => intro doc i _; rfl
  | cons kv rest ih =>
      intro doc i hi
      obtain ⟨j, nm⟩ := kv
      simp only [List.map_cons, List.mem_cons, not_or] at hi
      obtain ⟨hij, hrest⟩ := hi
      cases hf : findForest j doc with
      | some r =>
          simp only [applyRenamesLoop, hf]
          rw [ih (setNameForest j nm doc) i hrest]
          exact getNameById_setName_ne i j nm doc hij
      | none =>
          simp only [applyRenamesLoop, hf]
          exact ih doc i hrest

theorem applyRenamesLoop_memKey (renames : List (String × String)) :
    ∀ (doc : List SceneNode) (i nm : String), (i, nm) ∈ renames →
    (renames.map Prod.fst).Nodup →
    (findForest i doc).isSome = true →
    getNameById i (applyRenamesLoop renames doc).1 = some nm := by
  induction renames with
  | nil => intro doc i nm h; simp at h
  | cons kv rest ih =>
      intro doc i nm hmem hnodup hres
      obtain ⟨j, v⟩ := kv
      simp only [List.map_cons, List.nodup_cons] at hnodup
      obtain ⟨hjnot, hrestnodup⟩ := hnodup
      rcases List.mem_cons.mp hmem with heq | hrest
      · cases heq
        simp only [applyRenamesLoop]
        obtain ⟨r, hr⟩ := Option.isSome_iff_exists.mp hres
        simp only [hr]
        have hnotkey : i ∉ rest.map Prod.fst := hjnot
        rw [applyRenamesLoop_notKey rest (setNameForest i nm doc) i hnotkey]
        exact getNameById_setName_self i nm doc hres
      · have hij : i ≠ j := by
          intro h
          subst h
          exact hjnot (List.mem_map.mpr ⟨(i, nm), hrest, rfl⟩)
        cases hf : findForest j doc with
        | some r =>
            simp only [applyRenamesLoop, hf]
            apply ih (setNameForest j v doc) i nm hrest hrestnodup
            rw [findForest_isSome_setName]
            exact hres
        | none =>
            simp only [applyRenamesLoop, hf]
            exact ih doc i nm hrest hrestnodup hres

/-- C2: for a rename map with distinct keys, the `apply-renames` branch posts
`layers-renamed` with count equal to the number of keys that resolve in the
live document; every resolvable key's node ends up with its mapped name;
every id that is not a key keeps its name; unresolvable keys are skipped
without error (the branch is total and they contribute nothing). -/
theorem C2_applyRenames_exact (renames : List (String × String))
    (doc : List SceneNode) (hkeys : (renames.map Prod.fst).Nodup) :
    (onApplyRenames renames doc).2
      = HostOutMsg.layersRenamed
          ((renames.filter (fun kv => (findForest kv.1 doc).isSome)).length) ∧
    (∀ kv, kv ∈ renames → (findForest kv.1 doc).isSome = true →
      getNameById kv.1 (onApplyRenames renames doc).1 = some kv.2) ∧
    (∀ i, i ∉ renames.map Prod.fst →
      getNameById i (onApplyRenames renames doc).1 = getNameById i doc) := by
  refine ⟨?_, ?_, ?_⟩
  · simp only [onApplyRenames, applyRenamesLoop_count]
  · intro kv hmem hres
    exact applyRenamesLoop_memKey renames doc kv.1 kv.2 hmem hkeys hres
  · intro i hi
    exact applyRenamesLoop_notKey renames doc i hi

/-- C2 witness: document with two roots `"1:2"` and `"1:3"`; rename map with
three keys of which two resolve; the posted count is 2, the resolvable keys
are renamed, the extra key is skipped. -/
theorem C2_applyRenames_exact_witness :
    ((([("1:2", "Header"), ("9:9", "Ghost"), ("1:3", "Body")] :
        List (String × String)).map Prod.fst).Nodup = true) ∧
    ((onApplyRenames [("1:2", "Header"), ("9:9", "Ghost"), ("1:3", "Body")]
        [SceneNode.mk "1:2" "Rectangle 1" "RECTANGLE" "" none,
         SceneNode.mk "1:3" "Text 1" "TEXT" "hello" none]).2
      = HostOutMsg.layersRenamed
          (([("1:2", "Header"), ("9:9", "Ghost"), ("1:3", "Body")].filter
            (fun kv => (findForest kv.1
              [SceneNode.mk "1:2" "Rectangle 1" "RECTANGLE" "" none,
               SceneNode.mk "1:3" "Text 1" "TEXT" "hello" none]).isSome)).length)) ∧
    (∀ kv, kv ∈ [("1:2", "Header"), ("9:9", "Ghost"), ("1:3", "Body")] →
      (findForest kv.1
        [SceneNode.mk "1:2" "Rectangle 1" "RECTANGLE" "" none,
         SceneNode.mk "1:3" "Text 1" "TEXT" "hello" none]).isSome = true →
      getNameById kv.1 ((onApplyRenames [("1:2", "Header"), ("9:9", "Ghost"), ("1:3", "Body")]
        [SceneNode.mk "1:2" "Rectangle 1" "RECTANGLE" "" none,
         SceneNode.mk "1:3" "Text 1" "TEXT" "hello" none]).1) = some kv.2) ∧
    (∀ i, i ∉ ([("1:2", "Header"), ("9:9", "Ghost"), ("1:3", "Body")] :
        List (String × String)).map Prod.fst →
      getNameById i ((onApplyRenames [("1:2", "Header"), ("9:9", "Ghost"), ("1:3", "Body")]
        [SceneNode.mk "1:2" "Rectangle 1" "RECTANGLE" "" none,
         SceneNode.mk "1:3" "Text 1" "TEXT" "hello" none]).1)
        = getNameById i
          [SceneNode.mk "1:2" "Rectangle 1" "RECTANGLE" "" none,
           SceneNode.mk "1:3" "Text 1" "TEXT" "hello" none]) :=
  ⟨by decide,
   C2_applyRenames_exact
     [("1:2", "Header"), ("9:9", "Ghost"), ("1:3", "Body")]
     [SceneNode.mk "1:2" "Rectangle 1" "RECTANGLE" "" none,
      SceneNode.mk "1:3" "Text 1" "TEXT" "hello" none]
     (by decide)⟩

mutual

/-- The ids occurring in one serialized layer record. -/
def layerIds : LayerNode → List String
  | .mk i _ _ _ cs => i :: layerIdsChildren cs

def layerIdsChildren : Option (List LayerNode) → List String
  | none => []
  | some cs => layerIdsForest cs

/-- The ids occurring in a serialized selection, i.e. everything the model
was shown. -/
def layerIdsForest : List LayerNode → List String
  | [] => []
  | n :: ns => layerIds n ++ layerIdsForest ns

end

/-- C9: `apply-renames` is not restricted to the serialized selection: a key
that resolves anywhere in the live document is renamed and counted even when
its id occurs nowhere in the serialization that was sent to the model. -/
theorem C9_applyRenames_outside_selection (doc sel : List SceneNode)
    (renames : List (String × String)) (i nm : String)
    (hmem : (i, nm) ∈ renames)
    (hres : (findForest i doc).isSome = true)
    (hkeys : (renames.map Prod.fst).Nodup)
    (_houtside : i ∉ layerIdsForest (getNodeDataForest sel)) :
    getNameById i (applyRenamesLoop renames doc).1 = some nm ∧
    (applyRenamesLoop renames doc).2
      = (renames.filter (fun kv => (findForest kv.1 doc).isSome)).length ∧
    0 < (applyRenamesLoop renames doc).2 := by
  refine ⟨applyRenamesLoop_memKey renames doc i nm hmem hkeys hres, applyRenamesLoop_count renames doc, ?_⟩
  rw [applyRenamesLoop_count renames doc]
  have : (i, nm) ∈ renames.filter (fun kv => (findForest kv.1 doc).isSome) :=
    List.mem_filter.mpr ⟨hmem, hres⟩
  exact List.length_pos.mpr (List.ne_nil_of_mem this)

/-- C9 witness: the selection serialized for the model is the single root
`"1:2"`, but the rename map targets `"1:3"`, a different root of the
document; that node is renamed and counted anyway. -/
theorem C9_applyRenames_outside_selection_witness :
    (("1:3", "Sidebar") ∈ ([("1:3", "Sidebar")] : List (String × String))) ∧
    ((findForest "1:3"
        [SceneNode.mk "1:2" "Rectangle 1" "RECTANGLE" "" none,
         SceneNode.mk "1:3" "Frame 7" "FRAME" "" (some [])]).isSome = true) ∧
    ((([("1:3", "Sidebar")] : List (String × String)).map Prod.fst).Nodup) ∧
    ("1:3" ∉ layerIdsForest (getNodeDataForest
        [SceneNode.mk "1:2" "Rectangle 1" "RECTANGLE" "" none])) ∧
    (getNameById "1:3" ((applyRenamesLoop [("1:3", "Sidebar")]
        [SceneNode.mk "1:2" "Rectangle 1" "RECTANGLE" "" none,
         SceneNode.mk "1:3" "Frame 7" "FRAME" "" (some [])]).1) = some "Sidebar" ∧
    (applyRenamesLoop [("1:3", "Sidebar")]
        [SceneNode.mk "1:2" "Rectangle 1" "RECTANGLE" "" none,
         SceneNode.mk "1:3" "Frame 7" "FRAME" "" (some [])]).2
      = (([("1:3", "Sidebar")] : List (String × String)).filter
          (fun kv => (findForest kv.1
            [SceneNode.mk "1:2" "Rectangle 1" "RECTANGLE" "" none,
             SceneNode.mk "1:3" "Frame 7" "FRAME" "" (some [])]).isSome)).length ∧
    0 < (applyRenamesLoop [("1:3", "Sidebar")]
        [SceneNode.mk "1:2" "Rectangle 1" "RECTANGLE" "" none,
         SceneNode.mk "1:3" "Frame 7" "FRAME" "" (some [])]).2) :=
  ⟨by decide, by decide, by decide, by decide,
   C9_applyRenames_outside_selection
     [SceneNode.mk "1:2" "Rectangle 1" "RECTANGLE" "" none,
      SceneNode.mk "1:3" "Frame 7" "FRAME" "" (some [])]
     [SceneNode.mk "1:2" "Rectangle 1" "RECTANGLE" "" none]
     [("1:3", "Sidebar")] "1:3" "Sidebar"
     (by decide) (by decide) (by decide) (by decide)⟩

/-!
## The `rename-layers` branch and the UI trigger
-/

/-- Embeds the `rename-layers` branch of `figma.ui.onmessage`, threading the
document state explicitly: if the selection is empty, post
`{ type: "error", payload: "No layers selected" }` and return; otherwise
serialize the selection with `getNodeData` and post `layers-data-for-ai`.
The branch only reads the document, so the returned document is the input
one. -/
def onRenameLayers (doc selection : List SceneNode)
    (context apiKey model : String) : List SceneNode × List HostOutMsg :=
  if selection.length = 0 then
    (doc, [.error "No layers selected"])
  else
    (doc, [.layersDataForAI (selection.map getNodeData) context apiKey model])

/-- Recognizer for the message that hands serialized data to the UI (the
only step that leads to a network call). -/
def isLayersDataForAI : HostOutMsg → Bool
  | .layersDataForAI _ _ _ _ => true
  | _ => false

/-- Messages the UI posts to the host via `parent.postMessage`. -/
inductive UIOutMsg : Type where
  | requestStorage
  | saveApiKey (apiKey : String)
  | renameLayers (apiKey model context : String)
  | applyRenames (renames : List (String × String))

/-- Embeds `handleRename` from `src/ui.tsx`: with an empty API key
(`!apiKey`), set the status to "Please enter an API Key." and return
without posting; otherwise set "Processing..." and post `rename-layers`.
Returns the new status string and the messages posted. -/
def handleRename (apiKey model promptContext : String) : String × List UIOutMsg :=
  if apiKey = "" then
    ("Please enter an API Key.", [])
  else
    ("Processing...", [.renameLayers apiKey model promptContext])

/-- C7: an empty selection makes the host post the error message and no
`layers-data-for-ai` message (so no network call can follow), and a missing
API key makes the UI set the status message and post nothing (in particular
no `rename-layers`). -/
theorem C7_aborts_before_network (doc : List SceneNode)
    (selection : List SceneNode) (context hostApiKey model : String)
    (uiApiKey uiModel uiContext : String)
    (hsel : selection.length = 0) (hkey : uiApiKey = "") :
    onRenameLayers doc selection context hostApiKey model
      = (doc, [.error "No layers selected"]) ∧
    (∀ m ∈ (onRenameLayers doc selection context hostApiKey model).2,
      isLayersDataForAI m = false) ∧
    handleRename uiApiKey uiModel uiContext = ("Please enter an API Key.", []) ∧
    (handleRename uiApiKey uiModel uiContext).2 = [] := by
  have h1 : onRenameLayers doc selection context hostApiKey model
      = (doc, [.error "No layers selected"]) := by
    simp [onRenameLayers, hsel]
  refine ⟨h1, ?_, ?_, ?_⟩
  · intro m hm
    rw [h1] at hm
    simp at hm
    subst hm
    rfl
  · simp [handleRename, hkey]
  · simp [handleRename, hkey]

/-- C7 witness at the empty selection and the empty API key. -/
theorem C7_aborts_before_network_witness :
    (([] : List SceneNode).length = 0) ∧ ("" : String) = "" ∧
    (onRenameLayers [] [] "ctx" "key" "gemini-1.5-flash"
      = ([], [.error "No layers selected"]) ∧
    (∀ m ∈ (onRenameLayers [] [] "ctx" "key" "gemini-1.5-flash").2,
      isLayersDataForAI m = false) ∧
    handleRename "" "gemini-1.5-flash" "login screen"
      = ("Please enter an API Key.", []) ∧
    (handleRename "" "gemini-1.5-flash" "login screen").2 = []) :=
  ⟨rfl, rfl,
   C7_aborts_before_network [] [] "ctx" "key" "gemini-1.5-flash"
     "" "gemini-1.5-flash" "login screen" rfl rfl⟩

/-- C8: the serializer is read-only.  Running the `rename-layers` branch
(which serializes the selection with `getNodeData`) returns the document
unchanged, so every node's `id`, `name`, `type`, `characters` and `children`
are exactly what they were: any id resolves to the identical node before and
after, and the serialized payload is a value computed from the trees, not a
live link into the document. -/
theorem C8_serializer_read_only (doc selection : List SceneNode)
    (context apiKey model : String) :
    (onRenameLayers doc selection context apiKey model).1 = doc ∧
    (∀ i, findForest i ((onRenameLayers doc selection context apiKey model).1)
      = findForest i doc) ∧
    (∀ i, getNameById i ((onRenameLayers doc selection context apiKey model).1)
      = getNameById i doc) := by
  have h : (onRenameLayers doc selection context apiKey model).1 = doc := by
    unfold onRenameLayers
    by_cases hsel : selection.length = 0 <;> simp [hsel]
  exact ⟨h, fun i => by rw [h], fun i => by rw [h]⟩

/-!
## Markdown fence stripping

`text.replace(/` + "```json" + `/g, "").replace(/` + "```" + `/g, "").trim()`:
each `replace` with a global literal pattern finds the non-overlapping
matches left to right in its input and deletes them in a single pass
(deletions do not create new matches within the same pass), then `trim`
drops whitespace from both ends.
-/

/-- One pass of `String.replace` with a global literal pattern and the empty
replacement: scan left to right; where the pattern is a prefix, delete it and
continue after it; otherwise keep the character. -/
def removeAll (pat : List Char) : List Char → List Char
  | [] => []
  | c :: cs =>
      if h : pat ≠ [] ∧ pat <+: (c :: cs) then
        removeAll pat ((c :: cs).drop pat.length)
      else
        c :: removeAll pat cs
termination_by s => s.length
decreasing_by
  · have hp : 0 < pat.length := List.length_pos.mpr h.1
    simp only [List.length_drop, List.length_cons]
    omega
  · simp only [List.length_cons]
    omega

/-- The pattern of the first `replace`. -/
def fenceJson : List Char := "```json".data

/-- The pattern of the second `replace`. -/
def fenceTicks : List Char := "```".data

/-- `trimStart`: drop leading whitespace. -/
def trimLeftChars (l : List Char) : List Char := l.dropWhile Char.isWhitespace

/-- `trimEnd`: drop trailing whitespace. -/
def trimRightChars (l : List Char) : List Char :=
  (l.reverse.dropWhile Char.isWhitespace).reverse

/-- `trim`: drop whitespace at both ends. -/
def trimChars (l : List Char) : List Char := trimRightChars (trimLeftChars l)

/-- The fence-stripping step both model clients apply to the response text
before `JSON.parse`. -/
def stripFences (s : String) : String :=
  String.mk (trimChars (removeAll fenceTicks (removeAll fenceJson s.data)))

/-- A response body wrapped in a markdown code fence, as in the spec's
example. -/
def fenceWrap (s : String) : String := "```json\n" ++ s ++ "\n```"

/-!
## The model clients

Each client makes exactly one `fetch`; the response the network would hand to
successive fetches is modelled as a list, of which a call consumes the head.
The second component of the result counts the attempts actually made.
-/

/-- `response.ok` of the Fetch API: the status is in the range 200-299. -/
def respOk (status : Nat) : Bool := 200 ≤ status && status ≤ 299

/-- What `callLLM` reads off a Google response: the status, `statusText`,
the error body as seen through `errorBody.error?.message` and
`JSON.stringify(errorBody)` (`none` when `response.json()` throws), and
`data.candidates?.[0]?.content?.parts?.[0]?.text` (`none` when absent). -/
structure GoogleHttpResponse : Type where
  status : Nat
  statusText : String
  errorBody : Option (Option String × String)
  candidateText : Option String

/-- The error text `callLLM` reports for a non-ok, non-429 response:
`errorBody.error?.message || JSON.stringify(errorBody)`, falling back to
`response.statusText` when the body is not JSON (an empty message is falsy
in JS, so it also falls through to the stringified body). -/
def googleErrorMsg (r : GoogleHttpResponse) : String :=
  match r.errorBody with
  | none => r.statusText
  | some (some m, s) => if m = "" then s else m
  | some (none, s) => s

/-- Embeds `callLLM` (Google provider) from `src/ui.tsx` on one response:
429 throws the rate-limit error; any other non-ok status throws
`API Error <status>: <message>`; an ok response with no candidate text (or
the falsy empty text) throws; otherwise the fence-stripped text is returned
for `JSON.parse`. -/
def callLLMOnce (r : GoogleHttpResponse) : Except String String :=
  if respOk r.status = false then
    if r.status = 429 then
      Except.error "Quota exceeded (Rate Limit). Please wait ~30 seconds and try again."
    else
      Except.error ("API Error " ++ toString r.status ++ ": " ++ googleErrorMsg r)
  else
    match r.candidateText with
    | none => Except.error "No response text from AI"
    | some text =>
        if text = "" then Except.error "No response text from AI"
        else Except.ok (stripFences text)

/-- `callLLM` makes a single `fetch` and never loops: it consumes exactly one
response of the sequence the network would provide, whatever the outcome. -/
def callLLM (responses : List GoogleHttpResponse) : Except String String × Nat :=
  match responses with
  | [] => (Except.error "Failed to fetch", 0)
  | r :: _ => (callLLMOnce r, 1)

/-- What `callGitHub` reads off a GitHub Models response: the status, the
body text (`response.text()` on the error path) and
`data.choices[0].message.content` (`none` when the envelope lacks it). -/
structure GitHubHttpResponse : Type where
  status : Nat
  bodyText : String
  choiceContent : Option String

/-- Substring scan on character lists (`String.includes`). -/
def containsTok : List Char → List Char → Bool
  | [], pat => pat.isEmpty
  | c :: t, pat => pat.isPrefixOf (c :: t) || containsTok t pat

/-- `s.includes(pat)`. -/
def hasSubstr (s pat : String) : Bool := containsTok s.data pat.data

/-- The hint `callGitHub` throws when the error body mentions a missing
permission. -/
def githubPermissionMsg : String :=
  "Token missing permissions. Try using a \x27Classic\x27 Token with \x27read:user\x27 scope."

/-- Embeds `callGitHub` (GitHub provider) from `src/ui.tsx` on one response:
429 throws the rate-limit error; any other non-ok status throws either the
permissions hint (when the body mentions one) or `GitHub API Error: <body>`;
an ok response returns the fence-stripped message content for `JSON.parse`. -/
def callGitHubOnce (r : GitHubHttpResponse) : Except String String :=
  if respOk r.status = false then
    if r.status = 429 then
      Except.error "GitHub Rate Limit Exceeded."
    else if hasSubstr r.bodyText "permission is required" then
      Except.error githubPermissionMsg
    else
      Except.error ("GitHub API Error: " ++ r.bodyText)
  else
    match r.choiceContent with
    | none => Except.error "Cannot read properties of undefined"
    | some content => Except.ok (stripFences content)

/-- `callGitHub` makes a single `fetch` and never loops. -/
def callGitHub (responses : List GitHubHttpResponse) : Except String String × Nat :=
  match responses with
  | [] => (Except.error "Failed to fetch", 0)
  | r :: _ => (callGitHubOnce r, 1)

theorem containsTok_spec (hay pat : List Char) :
    containsTok hay pat = true ↔ pat <:+: hay := by
  induction hay with
  | nil =>
      simp [containsTok, List.isEmpty_iff]
  | cons c t ih =>
      simp only [containsTok, Bool.or_eq_true, List.isPrefixOf_iff_prefix, ih,
        List.infix_cons_iff]

theorem respOk_429 : respOk 429 = false := rfl

/-- C3: a 429 response makes both providers fail on the very first attempt
(one attempt, zero retries) with their rate-limit error, whose message
mentions the rate limit. -/
theorem C3_429_immediate (g : GoogleHttpResponse) (h : GitHubHttpResponse)
    (grest : List GoogleHttpResponse) (hrest : List GitHubHttpResponse)
    (hg : g.status = 429) (hh : h.status = 429) :
    callLLM (g :: grest)
      = (Except.error "Quota exceeded (Rate Limit). Please wait ~30 seconds and try again.", 1) ∧
    callGitHub (h :: hrest) = (Except.error "GitHub Rate Limit Exceeded.", 1) ∧
    hasSubstr "Quota exceeded (Rate Limit). Please wait ~30 seconds and try again."
      "Rate Limit" = true ∧
    hasSubstr "GitHub Rate Limit Exceeded." "Rate Limit" = true := by
  refine ⟨?_, ?_, by decide, by decide⟩
  · simp [callLLM, callLLMOnce, hg, respOk]
  · simp [callGitHub, callGitHubOnce, hh, respOk]

/-- C3 witness at concrete 429 responses. -/
theorem C3_429_immediate_witness :
    (GoogleHttpResponse.mk 429 "Too Many Requests" none none).status = 429 ∧
    (GitHubHttpResponse.mk 429 "rate limited" none).status = 429 ∧
    (callLLM [GoogleHttpResponse.mk 429 "Too Many Requests" none none]
      = (Except.error "Quota exceeded (Rate Limit). Please wait ~30 seconds and try again.", 1) ∧
    callGitHub [GitHubHttpResponse.mk 429 "rate limited" none]
      = (Except.error "GitHub Rate Limit Exceeded.", 1) ∧
    hasSubstr "Quota exceeded (Rate Limit). Please wait ~30 seconds and try again."
      "Rate Limit" = true ∧
    hasSubstr "GitHub Rate Limit Exceeded." "Rate Limit" = true) :=
  ⟨rfl, rfl,
   C3_429_immediate (GoogleHttpResponse.mk 429 "Too Many Requests" none none)
     (GitHubHttpResponse.mk 429 "rate limited" none) [] [] rfl rfl⟩

/-- C1 counterexample: with every attempt answered by a 503 response, the
clients make exactly 1 attempt, not the 3 total attempts the claim
requires, and the Google error is the generic status error, with no
mention of being unavailable beyond the echoed body. -/
theorem C1_counterexample_no_retry :
    (callLLM (List.replicate 3
      (GoogleHttpResponse.mk 503 "Service Unavailable"
        (some (some "The model is overloaded. Please try again later.", "overloaded"))
        none))).2 = 1 ∧
    (callLLM (List.replicate 3
      (GoogleHttpResponse.mk 503 "Service Unavailable"
        (some (some "The model is overloaded. Please try again later.", "overloaded"))
        none))).2 ≠ 3 ∧
    (callGitHub (List.replicate 3 (GitHubHttpResponse.mk 503 "overloaded" none))).2 = 1 ∧
    (callGitHub (List.replicate 3 (GitHubHttpResponse.mk 503 "overloaded" none))).2 ≠ 3 ∧
    (callLLM (List.replicate 3
      (GoogleHttpResponse.mk 503 "Service Unavailable"
        (some (some "The model is overloaded. Please try again later.", "overloaded"))
        none))).1
      = Except.error "API Error 503: The model is overloaded. Please try again later." := by
  refine ⟨rfl, by decide, rfl, by decide, ?_⟩
  rfl

/-- C1 as the code has it: a 503 response is not retried.  Both providers
fail immediately on the first attempt (exactly one attempt consumed, no
delay, no retry loop): the Google client with `API Error 503: <message>`,
the GitHub client with its generic error (or the permissions hint). -/
theorem C1_503_fails_immediately (g : GoogleHttpResponse) (h : GitHubHttpResponse)
    (grest : List GoogleHttpResponse) (hrest : List GitHubHttpResponse)
    (hg : g.status = 503) (hh : h.status = 503) :
    callLLM (g :: grest)
      = (Except.error ("API Error " ++ toString g.status ++ ": " ++ googleErrorMsg g), 1) ∧
    callGitHub (h :: hrest)
      = (Except.error (if hasSubstr h.bodyText "permission is required" then
            githubPermissionMsg else "GitHub API Error: " ++ h.bodyText), 1) := by
  constructor
  · simp [callLLM, callLLMOnce, hg, respOk]
  · simp only [callGitHub, callGitHubOnce, hh, respOk]
    norm_num
    by_cases hp : hasSubstr h.bodyText "permission is required" = true <;> simp [hp]

/-- C1 amended-claim witness at concrete 503 responses. -/
theorem C1_503_fails_immediately_witness :
    (GoogleHttpResponse.mk 503 "Service Unavailable" none none).status = 503 ∧
    (GitHubHttpResponse.mk 503 "overloaded" none).status = 503 ∧
    (callLLM [GoogleHttpResponse.mk 503 "Service Unavailable" none none]
      = (Except.error ("API Error "
          ++ toString (GoogleHttpResponse.mk 503 "Service Unavailable" none none).status
          ++ ": " ++ googleErrorMsg (GoogleHttpResponse.mk 503 "Service Unavailable" none none)), 1) ∧
    callGitHub [GitHubHttpResponse.mk 503 "overloaded" none]
      = (Except.error (if hasSubstr (GitHubHttpResponse.mk 503 "overloaded" none).bodyText
            "permission is required" then githubPermissionMsg
          else "GitHub API Error: " ++ (GitHubHttpResponse.mk 503 "overloaded" none).bodyText), 1)) :=
  ⟨rfl, rfl,
   C1_503_fails_immediately (GoogleHttpResponse.mk 503 "Service Unavailable" none none)
     (GitHubHttpResponse.mk 503 "overloaded" none) [] [] rfl rfl⟩

theorem hasSubstr_infix (s pat : String) (h : pat.data <:+: s.data) :
    hasSubstr s pat = true := by
  unfold hasSubstr
  exact (containsTok_spec s.data pat.data).mpr h

/-- C5 counterexample: for the GitHub provider, a 500 response with body
`boom` produces the error `GitHub API Error: boom`, which carries the body
but does not contain the HTTP status code `500` anywhere. -/
theorem C5_counterexample_github_status :
    callGitHub [GitHubHttpResponse.mk 500 "boom" none]
      = (Except.error "GitHub API Error: boom", 1) ∧
    hasSubstr "GitHub API Error: boom" "500" = false := by
  exact ⟨rfl, by decide⟩

/-- C5 as the code has it: on a non-success status other than 429, the
Google client fails with `API Error <status>: <message>` - the message
contains both the status code and the best-effort extracted body message -
while the GitHub client fails with the permissions hint or with
`GitHub API Error: <body>`, which contains the body text but not the
status code. -/
theorem C5_other_status_error (g : GoogleHttpResponse) (h : GitHubHttpResponse)
    (grest : List GoogleHttpResponse) (hrest : List GitHubHttpResponse)
    (hgok : respOk g.status = false) (hg429 : g.status ≠ 429)
    (hhok : respOk h.status = false) (hh429 : h.status ≠ 429) :
    callLLM (g :: grest)
      = (Except.error ("API Error " ++ toString g.status ++ ": " ++ googleErrorMsg g), 1) ∧
    hasSubstr ("API Error " ++ toString g.status ++ ": " ++ googleErrorMsg g)
      (toString g.status) = true ∧
    hasSubstr ("API Error " ++ toString g.status ++ ": " ++ googleErrorMsg g)
      (googleErrorMsg g) = true ∧
    callGitHub (h :: hrest)
      = (Except.error (if hasSubstr h.bodyText "permission is required" then
          githubPermissionMsg else "GitHub API Error: " ++ h.bodyText), 1) ∧
    (hasSubstr h.bodyText "permission is required" = false →
      hasSubstr ("GitHub API Error: " ++ h.bodyText) h.bodyText = true) := by
  refine ⟨?_, ?_, ?_, ?_, ?_⟩
  · simp [callLLM, callLLMOnce, hgok, hg429]
  · apply hasSubstr_infix
    refine ⟨"API Error ".data, (": " ++ googleErrorMsg g).data, ?_⟩
    simp [String.data_append]
  · apply hasSubstr_infix
    refine ⟨("API Error " ++ toString g.status ++ ": ").data, [], ?_⟩
    simp [String.data_append]
  · simp only [callGitHub, callGitHubOnce, hhok, hh429]
    norm_num
    by_cases hp : hasSubstr h.bodyText "permission is required" = true <;> simp [hp]
  · intro _
    apply hasSubstr_infix
    refine ⟨"GitHub API Error: ".data, [], ?_⟩
    simp [String.data_append]

/-- C5 amended-claim witness: a 500 with a JSON error body for Google, a 500
with a plain body for GitHub. -/
theorem C5_other_status_error_witness :
    respOk (GoogleHttpResponse.mk 500 "Internal Server Error"
      (some (some "backend exploded", "stringified")) none).status = false ∧
    (GoogleHttpResponse.mk 500 "Internal Server Error"
      (some (some "backend exploded", "stringified")) none).status ≠ 429 ∧
    respOk (GitHubHttpResponse.mk 500 "boom" none).status = false ∧
    (GitHubHttpResponse.mk 500 "boom" none).status ≠ 429 ∧
    (callLLM [GoogleHttpResponse.mk 500 "Internal Server Error"
        (some (some "backend exploded", "stringified")) none]
      = (Except.error ("API Error "
          ++ toString (GoogleHttpResponse.mk 500 "Internal Server Error"
              (some (some "backend exploded", "stringified")) none).status
          ++ ": " ++ googleErrorMsg (GoogleHttpResponse.mk 500 "Internal Server Error"
              (some (some "backend exploded", "stringified")) none)), 1) ∧
    hasSubstr ("API Error "
        ++ toString (GoogleHttpResponse.mk 500 "Internal Server Error"
            (some (some "backend exploded", "stringified")) none).status
        ++ ": " ++ googleErrorMsg (GoogleHttpResponse.mk 500 "Internal Server Error"
            (some (some "backend exploded", "stringified")) none))
      (toString (GoogleHttpResponse.mk 500 "Internal Server Error"
          (some (some "backend exploded", "stringified")) none).status) = true ∧
    hasSubstr ("API Error "
        ++ toString (GoogleHttpResponse.mk 500 "Internal Server Error"
            (some (some "backend exploded", "stringified")) none).status
        ++ ": " ++ googleErrorMsg (GoogleHttpResponse.mk 500 "Internal Server Error"
            (some (some "backend exploded", "stringified")) none))
      (googleErrorMsg (GoogleHttpResponse.mk 500 "Internal Server Error"
          (some (some "backend exploded", "stringified")) none)) = true ∧
    callGitHub [GitHubHttpResponse.mk 500 "boom" none]
      = (Except.error (if hasSubstr (GitHubHttpResponse.mk 500 "boom" none).bodyText
          "permission is required" then githubPermissionMsg
        else "GitHub API Error: " ++ (GitHubHttpResponse.mk 500 "boom" none).bodyText), 1) ∧
    (hasSubstr (GitHubHttpResponse.mk 500 "boom" none).bodyText "permission is required" = false →
      hasSubstr ("GitHub API Error: " ++ (GitHubHttpResponse.mk 500 "boom" none).bodyText)
        (GitHubHttpResponse.mk 500 "boom" none).bodyText = true)) :=
  ⟨rfl, by decide, rfl, by decide,
   C5_other_status_error
     (GoogleHttpResponse.mk 500 "Internal Server Error"
       (some (some "backend exploded", "stringified")) none)
     (GitHubHttpResponse.mk 500 "boom" none) [] []
     rfl (by decide) rfl (by decide)⟩

/-!
## Fence stripping is invariant under fence wrapping
-/

theorem removeAll_nil (pat : List Char) : removeAll pat [] = [] := by
  simp [removeAll]

theorem removeAll_cons (pat : List Char) (c : Char) (cs : List Char) :
    removeAll pat (c :: cs)
      = if pat ≠ [] ∧ pat <+: (c :: cs) then removeAll pat ((c :: cs).drop pat.length)
        else c :: removeAll pat cs := by
  rw [removeAll]
  split <;> rfl

theorem removeAll_cancel (pat m : List Char) (hp : pat ≠ []) :
    removeAll pat (pat ++ m) = removeAll pat m := by
  obtain ⟨p, ps, rfl⟩ : ∃ p ps, pat = p :: ps := by
    cases pat with
    | nil => exact absurd rfl hp
    | cons p ps => exact ⟨p, ps, rfl⟩
  rw [List.cons_append, removeAll_cons]
  rw [if_pos ⟨hp, by rw [← List.cons_append]; exact List.prefix_append _ _⟩]
  congr 1
  rw [← List.cons_append, List.drop_left]

theorem removeAll_cons_not_mem (pat : List Char) (c : Char) (cs : List Char)
    (hc : c ∉ pat) : removeAll pat (c :: cs) = c :: removeAll pat cs := by
  rw [removeAll_cons, if_neg]
  rintro ⟨hne, hpre⟩
  cases pat with
  | nil => exact hne rfl
  | cons p ps =>
      rw [List.cons_prefix_cons] at hpre
      exact hc (hpre.1 ▸ List.mem_cons_self p ps)

theorem removeAll_short (pat : List Char) :
    ∀ s : List Char, s.length < pat.length → removeAll pat s = s := by
  intro s
  induction s with
  | nil => intro _; exact removeAll_nil pat
  | cons c cs ih =>
      intro hlen
      rw [removeAll_cons, if_neg]
      · rw [ih (by simp at hlen; omega)]
      · rintro ⟨hne, hpre⟩
        have := hpre.length_le
        omega

theorem removeAll_append_cons_aux (pat : List Char) (c : Char) (hp : pat ≠ []) (hc : c ∉ pat) :
    ∀ (n : Nat) (l : List Char), l.length ≤ n → ∀ rest : List Char,
    removeAll pat (l ++ c :: rest) = removeAll pat l ++ removeAll pat (c :: rest) := by
  intro n
  induction n with
  | zero =>
      intro l hl rest
      have hnil : l = [] := List.eq_nil_of_length_eq_zero (Nat.le_zero.mp hl)
      subst hnil
      simp [removeAll_nil]
  | succ n ih =>
      intro l hl rest
      cases l with
      | nil => simp [removeAll_nil]
      | cons a l' =>
          by_cases hpre : pat <+: (a :: l')
          · obtain ⟨m, hm⟩ := hpre
            have hmlen : m.length ≤ n := by
              have hcong := congrArg List.length hm
              have hplen : 0 < pat.length := List.length_pos.mpr hp
              simp at hcong
              simp at hl
              omega
            calc removeAll pat ((a :: l') ++ c :: rest)
                = removeAll pat (pat ++ (m ++ c :: rest)) := by
                  rw [← hm]; rw [List.append_assoc]
              _ = removeAll pat (m ++ c :: rest) := removeAll_cancel pat _ hp
              _ = removeAll pat m ++ removeAll pat (c :: rest) := ih m hmlen rest
              _ = removeAll pat (a :: l') ++ removeAll pat (c :: rest) := by
                  rw [← hm, removeAll_cancel pat m hp]
          · have hnot : ¬ (pat <+: a :: (l' ++ c :: rest)) := by
              intro hcon
              have hcon2 : pat <+: (a :: l') ++ c :: rest := by
                rw [List.cons_append]; exact hcon
              by_cases hlen : pat.length ≤ (a :: l').length
              · exact hpre
                  (List.prefix_of_prefix_length_le hcon2 (List.prefix_append _ _) hlen)
              · have h1 : (a :: l') ++ [c] <+: (a :: l') ++ c :: rest :=
                  ⟨rest, by simp⟩
                have h2 : (a :: l') ++ [c] <+: pat := by
                  refine List.prefix_of_prefix_length_le h1 hcon2 ?_
                  simp at hlen ⊢
                  omega
                exact hc (h2.subset (by simp))
            rw [List.cons_append, removeAll_cons, if_neg (by rintro ⟨_, hx⟩; exact hnot hx)]
            rw [removeAll_cons pat a l', if_neg (by rintro ⟨_, hx⟩; exact hpre hx)]
            rw [ih l' (by simp at hl; omega) rest]
            simp

theorem removeAll_append_cons (pat : List Char) (c : Char) (hp : pat ≠ []) (hc : c ∉ pat)
    (l rest : List Char) :
    removeAll pat (l ++ c :: rest) = removeAll pat l ++ removeAll pat (c :: rest) :=
  removeAll_append_cons_aux pat c hp hc l.length l le_rfl rest

theorem trimChars_cons_ws (c : Char) (l : List Char) (hc : c.isWhitespace = true) :
    trimChars (c :: l) = trimChars l := by
  unfold trimChars trimLeftChars
  rw [List.dropWhile_cons_of_pos hc]

theorem trimRightChars_append_ws (c : Char) (l : List Char) (hc : c.isWhitespace = true) :
    trimRightChars (l ++ [c]) = trimRightChars l := by
  unfold trimRightChars
  rw [List.reverse_append]
  simp [List.dropWhile_cons_of_pos hc]

theorem trimChars_append_ws (c : Char) (l : List Char) (hc : c.isWhitespace = true) :
    trimChars (l ++ [c]) = trimChars l := by
  unfold trimChars trimLeftChars
  rw [List.dropWhile_append]
  by_cases he : (l.dropWhile Char.isWhitespace).isEmpty
  · rw [if_pos he]
    rw [List.isEmpty_iff] at he
    rw [he]
    simp [List.dropWhile_cons_of_pos hc]
  · rw [if_neg he]
    exact trimRightChars_append_ws c _ hc

theorem removeAll_fenceJson_fenceTicks : removeAll fenceJson fenceTicks = fenceTicks := by
  apply removeAll_short
  decide

theorem removeAll_fenceTicks_self : removeAll fenceTicks fenceTicks = [] := by
  have h : removeAll fenceTicks (fenceTicks ++ []) = removeAll fenceTicks [] :=
    removeAll_cancel fenceTicks [] (by decide)
  rw [List.append_nil] at h
  rw [h, removeAll_nil]

theorem stripFences_fenceWrap (s : String) : stripFences (fenceWrap s) = stripFences s := by
  have hdata : (fenceWrap s).data = fenceJson ++ '\n' :: (s.data ++ '\n' :: fenceTicks) := by
    show ("```json\n" ++ s ++ "\n```").data = _
    rw [String.data_append, String.data_append]
    have h1 : "```json\n".data = fenceJson ++ ['\n'] := by decide
    have h2 : "\n```".data = '\n' :: fenceTicks := by decide
    rw [h1, h2]
    simp
  unfold stripFences
  rw [hdata]
  rw [removeAll_cancel fenceJson _ (by decide)]
  rw [removeAll_cons_not_mem fenceJson '\n' _ (by decide)]
  rw [removeAll_append_cons fenceJson '\n' (by decide) (by decide) s.data fenceTicks]
  rw [removeAll_cons_not_mem fenceJson '\n' fenceTicks (by decide)]
  rw [removeAll_fenceJson_fenceTicks]
  rw [removeAll_cons_not_mem fenceTicks '\n' _ (by decide)]
  rw [removeAll_append_cons fenceTicks '\n' (by decide) (by decide) _ fenceTicks]
  rw [removeAll_cons_not_mem fenceTicks '\n' fenceTicks (by decide)]
  rw [removeAll_fenceTicks_self]
  rw [trimChars_cons_ws _ _ (by decide)]
  rw [trimChars_append_ws '\n' _ (by decide)]

/-- C4: stripping markdown fences and then parsing treats a fence-wrapped
body exactly like the unwrapped body: for every response text, the
fence-stripping step gives the same string for the wrapped and the bare
body, so any parse of the two agrees. -/
theorem C4_strip_parse_fence_invariant (s : String)
    (parse : String → Option (List (String × String))) :
    stripFences (fenceWrap s) = stripFences s ∧
    parse (stripFences (fenceWrap s)) = parse (stripFences s) :=
  ⟨stripFences_fenceWrap s, congrArg parse (stripFences_fenceWrap s)⟩

/-!
## `reportSelectionStats`

`JSON.stringify(layersData)` on the serialized selection: an array of
objects with the keys in insertion order (`id`, `name`, `type`, then `text`
when defined and `children` when present - `undefined` values are omitted by
`JSON.stringify`), strings escaped as JSON escapes them.
-/

/-- Lower-case hex digit. -/
def hexDigitChar (n : Nat) : Char :=
  if n < 10 then Char.ofNat (48 + n) else Char.ofNat (87 + n)

/-- How `JSON.stringify` escapes one character inside a string literal. -/
def jsonEscapeChar (c : Char) : List Char :=
  if c = '"' then ['\\', '"']
  else if c = '\\' then ['\\', '\\']
  else if c = '\x08' then ['\\', 'b']
  else if c = '\t' then ['\\', 't']
  else if c = '\n' then ['\\', 'n']
  else if c = '\x0c' then ['\\', 'f']
  else if c = '\r' then ['\\', 'r']
  else if c.toNat < 32 then
    ['\\', 'u', '0', '0', hexDigitChar (c.toNat / 16), hexDigitChar (c.toNat % 16)]
  else [c]

/-- A JSON string literal for `s`. -/
def jsonQuote (s : String) : String :=
  String.mk ('"' :: s.data.flatMap jsonEscapeChar ++ ['"'])

/-- The serialized `text` field, omitted when `undefined`. -/
def stringifyTextField : Option String → String
  | none => ""
  | some t => ",\"text\":" ++ jsonQuote t

mutual

/-- `JSON.stringify` of one serialized layer record. -/
def stringifyLayer : LayerNode → String
  | .mk i n t tx cs =>
      "\x7b\"id\":" ++ jsonQuote i ++ ",\"name\":" ++ jsonQuote n
        ++ ",\"type\":" ++ jsonQuote t
        ++ stringifyTextField tx
        ++ stringifyChildrenField cs
        ++ "\x7d"

/-- The serialized `children` field, omitted when the record has none. -/
def stringifyChildrenField : Option (List LayerNode) → String
  | none => ""
  | some l => ",\"children\":[" ++ stringifyLayers l ++ "]"

/-- Comma-joined `JSON.stringify` of a list of layer records. -/
def stringifyLayers : List LayerNode → String
  | [] => ""
  | [n] => stringifyLayer n
  | n :: ns => stringifyLayer n ++ "," ++ stringifyLayers ns

end

/-- `JSON.stringify` of the serialized selection (a JSON array). -/
def stringifyLayerArray (l : List LayerNode) : String :=
  "[" ++ stringifyLayers l ++ "]"

/-- `Math.ceil(n / 4)` on a natural number. -/
def mathCeilDiv4 (n : Nat) : Nat := (n + 3) / 4

/-- Embeds `reportSelectionStats` from `code.ts`: an empty selection posts
`selection-changed` with `{count: 0, estimatedTokens: 0}`; otherwise the
selection is serialized with `getNodeData`, stringified, and the message
carries the selection length and `Math.ceil(jsonString.length / 4)`. -/
def reportSelectionStats (selection : List SceneNode) : HostOutMsg :=
  if selection.length = 0 then
    .selectionChanged 0 0
  else
    .selectionChanged selection.length
      (mathCeilDiv4 (stringifyLayerArray (selection.map getNodeData)).length)

/-- C10: `reportSelectionStats` posts `{count: 0, estimatedTokens: 0}` for an
empty selection, and otherwise `count` is the number of selected roots and
`estimatedTokens` is the ceiling of the JSON serialization length divided by
4 (the embedded `(L + 3) / 4` is that ceiling: `L ≤ 4t < L + 4`). -/
theorem C10_selection_stats (sel : List SceneNode) :
    reportSelectionStats sel
      = (if sel.length = 0 then HostOutMsg.selectionChanged 0 0
         else HostOutMsg.selectionChanged sel.length
           (mathCeilDiv4 (stringifyLayerArray (sel.map getNodeData)).length)) ∧
    (stringifyLayerArray (sel.map getNodeData)).length
      ≤ 4 * mathCeilDiv4 ((stringifyLayerArray (sel.map getNodeData)).length) ∧
    4 * mathCeilDiv4 ((stringifyLayerArray (sel.map getNodeData)).length)
      < (stringifyLayerArray (sel.map getNodeData)).length + 4 := by
  refine ⟨rfl, ?_, ?_⟩ <;>
    · unfold mathCeilDiv4
      omega
